import Mathlib

/-!
Verification of the core logic of a Telegram calendar bot
(src/telegram_bot.py): the event-field resolver of
`parse_event_from_text_gemini`, the markdown-fence stripping and JSON
field extraction, and the calendar-link / display-message formatting of
`handle_message`.

External collaborators (the Gemini LLM call and the `dateparser`
natural-language date parser) are modelled as abstract functions passed
as parameters; everything with decision logic in the source is embedded
concretely.  Timestamps produced by the date parser are modelled as
integers (seconds on an absolute time line); a Python `timedelta` is an
integer number of seconds, so `timedelta(hours=1)` is 3600.
-/

/-- Numeric value of an ASCII digit character, as Python `int()` sees it. -/
def c2d (c : Char) : Nat := c.toNat - 48

/-- Decimal value of a digit string, as Python `int()` computes it
(leading zeros allowed). -/
def digitVal (ds : List Char) : Nat := ds.foldl (fun a c => 10 * a + c2d c) 0

/-- ASCII whitespace, the characters matched by the regex class `\s`
on the ASCII inputs in scope. -/
def pySpace (c : Char) : Bool :=
  c = ' ' || c = '\t' || c = '\n' || c = '\r' || c = '\x0b' || c = '\x0c'

/-- The unit alternatives of the duration regex
`(\d+)\s*(hour|hr|h|minute|min|m)s?`, as character lists, in the order
the regex tries them: `hour`, `hr`, `h`, `minute`, `min`, `m`. -/
def unitAlts : List (List Char) :=
  [['h', 'o', 'u', 'r'], ['h', 'r'], ['h'],
   ['m', 'i', 'n', 'u', 't', 'e'], ['m', 'i', 'n'], ['m']]

/-- Embeds `re.match(r"(\d+)\s*(hour|hr|h|minute|min|m)s?", duration_str,
re.IGNORECASE)` together with the unit classification of
telegram_bot.py lines 192-199.  `re.match` anchors at the start only and
needs no full match, so this is a prefix match: leading digits, optional
whitespace, then the first alternative that matches (case-insensitively);
the optional `s` and any trailing text are ignored.  The captured unit,
lowercased, is classified as hours when it is `hour`, `hr` or `h`, else
as minutes.  Returns the timedelta in seconds. -/
def duration_match (d : String) : Option Int :=
  let cs := d.toList
  let ds := cs.takeWhile Char.isDigit
  let rest := cs.dropWhile Char.isDigit
  if ds = [] then none
  else
    let rest2 := (rest.dropWhile pySpace).map Char.toLower
    match unitAlts.find? (fun u => u.isPrefixOf rest2) with
    | some u =>
      if u = ['h', 'o', 'u', 'r'] ∨ u = ['h', 'r'] ∨ u = ['h'] then
        some (3600 * (digitVal ds : Int))
      else some (60 * (digitVal ds : Int))
    | none => none

/-- The mapping produced from the LLM JSON by `extracted_data.get(...)`
(telegram_bot.py lines 158-163): each field is absent (`None`) or a value. -/
structure ExtractedFields where
  title : Option String
  start_time_str : Option String
  end_time_str : Option String
  duration_str : Option String
  location : Option String
  reminder : Option Int
deriving Repr, DecidableEq

/-- The successful result of `parse_event_from_text_gemini`
(the tuple of line 218, minus the `None` components of failures). -/
structure ResolvedEvent where
  title : String
  start_dt : Int
  end_dt : Int
  location : Option String
  reminder : Option Int
deriving Repr, DecidableEq

/-- Python truthiness gate for an optional string: `if s:` is false for
`None` and for the empty string. -/
def truthyStr : Option String → Option String
  | some s => if s = "" then none else some s
  | none => none

/-- The date/time resolver of `parse_event_from_text_gemini`
(telegram_bot.py lines 165-218).  `parse` abstracts
`dateparser.parse(-, settings=dateparser_settings)` (the same settings
are used for start and end); `parseDur` abstracts the fallback
`dateparser.parse(duration_str, settings={RELATIVE_BASE: datetime.min})`
followed by subtraction of `datetime.min`, i.e. it yields the parsed
delta in seconds when the free-form parse succeeds.

The source parses `end_time_str` before checking `start_dt`, but when the
start is missing or unparseable it returns the all-`None` tuple
regardless, so the embedding matches on the start first; the observable
result is identical.  The all-`None` failure tuple is modelled as `none`. -/
def resolveEvent (parse : String → Option Int) (parseDur : String → Option Int)
    (f : ExtractedFields) : Option ResolvedEvent :=
  match (truthyStr f.start_time_str).bind parse with
  | none => none
  | some s =>
    let end_dt0 := (truthyStr f.end_time_str).bind parse
    let end_dt1 :=
      match end_dt0 with
      | some e => some e
      | none =>
        match truthyStr f.duration_str with
        | none => none
        | some dstr =>
          match duration_match dstr with
          | some delta => some (s + delta)
          | none =>
            match parseDur dstr with
            | none => none
            | some delta => if 0 < delta then some (s + delta) else none
    some { title := (truthyStr f.title).getD "Event"
           start_dt := s
           end_dt := end_dt1.getD (s + 3600)
           location := f.location
           reminder := f.reminder }

/-- C1: when `start_time_str` is absent, or present but the
natural-language date parser yields nothing for it, resolution returns
the `NoStartTime` failure (the all-`None` tuple, modelled as `none`), so
no `ResolvedEvent` is produced. -/
theorem C1_no_start_time (parse parseDur : String → Option Int)
    (f : ExtractedFields)
    (h : f.start_time_str = none ∨
         ∃ s, f.start_time_str = some s ∧ parse s = none) :
    resolveEvent parse parseDur f = none := by
  obtain ⟨ft, fs, fe, fd, fl, fr⟩ := f
  rcases h with h | ⟨s, hs, hp⟩
  · simp only at h
    subst h
    simp [resolveEvent, truthyStr]
  · simp only at hs
    subst hs
    by_cases hse : s = "" <;> simp [resolveEvent, truthyStr, hse, hp]

/-- C1 witness. -/
theorem C1_no_start_time_witness :
    resolveEvent (fun _ => none) (fun _ => none)
      ⟨some "Meet", some "gibberish", none, none, none, none⟩ = none :=
  C1_no_start_time (fun _ => none) (fun _ => none)
    ⟨some "Meet", some "gibberish", none, none, none, none⟩
    (Or.inr ⟨"gibberish", rfl, rfl⟩)

/-- C2: with a start string that parses and no usable end or duration
string, the resolved end is exactly `start + 1 hour` (3600 seconds). -/
theorem C2_default_one_hour (parse parseDur : String → Option Int)
    (f : ExtractedFields) (sS : String) (t : Int)
    (hS : f.start_time_str = some sS) (hSne : sS ≠ "")
    (hSp : parse sS = some t)
    (hE : f.end_time_str = none ∨
          ∃ sE, f.end_time_str = some sE ∧ (sE = "" ∨ parse sE = none))
    (hD : f.duration_str = none ∨ f.duration_str = some "") :
    ∃ ev, resolveEvent parse parseDur f = some ev ∧
      ev.start_dt = t ∧ ev.end_dt = t + 3600 := by
  obtain ⟨ft, fs, fe, fd, fl, fr⟩ := f
  simp only at hS hE hD
  subst hS
  refine ⟨⟨(truthyStr ft).getD "Event", t, t + 3600, fl, fr⟩, ?_, rfl, rfl⟩
  have hEnd : (truthyStr fe).bind parse = none := by
    rcases hE with h | ⟨sE, hse, h2⟩
    · subst h; rfl
    · subst hse
      rcases h2 with h2 | h2
      · subst h2; rfl
      · by_cases hne : sE = "" <;> simp [truthyStr, hne, h2]
  have hDur : truthyStr fd = none := by
    rcases hD with h | h <;> subst h <;> simp [truthyStr]
  have hStart : (truthyStr (some sS)).bind parse = some t := by
    simp [truthyStr, hSne, hSp]
  simp [resolveEvent, hStart, hEnd, hDur]

/-- C2 witness. -/
theorem C2_default_one_hour_witness :
    ∃ ev,
      resolveEvent (fun s => if s = "tomorrow 3pm" then some 1000 else none)
        (fun _ => none)
        ⟨some "Sync", some "tomorrow 3pm", none, none, none, none⟩ = some ev ∧
      ev.start_dt = 1000 ∧ ev.end_dt = 1000 + 3600 :=
  C2_default_one_hour
    (fun s => if s = "tomorrow 3pm" then some 1000 else none) (fun _ => none)
    ⟨some "Sync", some "tomorrow 3pm", none, none, none, none⟩
    "tomorrow 3pm" 1000 rfl (by decide) (by decide) (Or.inl rfl) (Or.inl rfl)

/-- A regex-whitespace character is not a digit. -/
theorem pySpace_not_digit (c : Char) (h : pySpace c = true) : c.isDigit = false := by
  simp only [pySpace, Bool.or_eq_true, decide_eq_true_eq] at h
  rcases h with ((((h | h) | h) | h) | h) | h <;> subst h <;> decide

/-- `takeWhile` passes over a block that wholly satisfies the predicate. -/
theorem takeWhile_append_of_all (p : Char → Bool) (l1 l2 : List Char)
    (h : ∀ c ∈ l1, p c = true) :
    (l1 ++ l2).takeWhile p = l1 ++ l2.takeWhile p := by
  induction l1 with
  | nil => simp
  | cons a as ih =>
    simp [List.takeWhile_cons, h a (by simp), ih (fun c hc => h c (by simp [hc]))]

/-- `dropWhile` removes a block that wholly satisfies the predicate. -/
theorem dropWhile_append_of_all (p : Char → Bool) (l1 l2 : List Char)
    (h : ∀ c ∈ l1, p c = true) :
    (l1 ++ l2).dropWhile p = l2.dropWhile p := by
  induction l1 with
  | nil => simp
  | cons a as ih =>
    simp only [List.cons_append, List.dropWhile_cons, h a (by simp)]
    exact ih (fun c hc => h c (by simp [hc]))

/-- `takeWhile` takes nothing when the head fails the predicate. -/
theorem takeWhile_head_false (p : Char → Bool) (l : List Char)
    (h : ∀ c, l.head? = some c → p c = false) :
    l.takeWhile p = [] := by
  cases l with
  | nil => rfl
  | cons a as => simp [List.takeWhile_cons, h a rfl]

/-- `dropWhile` drops nothing when the head fails the predicate. -/
theorem dropWhile_head_false (p : Char → Bool) (l : List Char)
    (h : ∀ c, l.head? = some c → p c = false) :
    l.dropWhile p = l := by
  cases l with
  | nil => rfl
  | cons a as => simp [List.dropWhile_cons, h a rfl]

/-- On input starting with `h` the regex alternation always captures one
of the hour units, whatever follows. -/
theorem find_units_h (R : List Char) :
    ∃ u, unitAlts.find? (fun v => v.isPrefixOf ('h' :: R)) = some u ∧
      (u = ['h', 'o', 'u', 'r'] ∨ u = ['h', 'r'] ∨ u = ['h']) := by
  cases h1 : (['o', 'u', 'r'] : List Char).isPrefixOf R with
  | true =>
    exact ⟨['h', 'o', 'u', 'r'],
      by simp [unitAlts, List.find?, List.isPrefixOf, h1], Or.inl rfl⟩
  | false =>
    cases h2 : (['r'] : List Char).isPrefixOf R with
    | true =>
      exact ⟨['h', 'r'],
        by simp [unitAlts, List.find?, List.isPrefixOf, h1, h2],
        Or.inr (Or.inl rfl)⟩
    | false =>
      exact ⟨['h'],
        by simp [unitAlts, List.find?, List.isPrefixOf, h1, h2],
        Or.inr (Or.inr rfl)⟩

/-- On input starting with `m` the regex alternation always captures one
of the minute units, whatever follows. -/
theorem find_units_m (R : List Char) :
    ∃ u, unitAlts.find? (fun v => v.isPrefixOf ('m' :: R)) = some u ∧
      (u = ['m', 'i', 'n', 'u', 't', 'e'] ∨ u = ['m', 'i', 'n'] ∨ u = ['m']) := by
  cases h1 : (['i', 'n', 'u', 't', 'e'] : List Char).isPrefixOf R with
  | true =>
    exact ⟨['m', 'i', 'n', 'u', 't', 'e'],
      by simp [unitAlts, List.find?, List.isPrefixOf, h1], Or.inl rfl⟩
  | false =>
    cases h2 : (['i', 'n'] : List Char).isPrefixOf R with
    | true =>
      exact ⟨['m', 'i', 'n'],
        by simp [unitAlts, List.find?, List.isPrefixOf, h1, h2],
        Or.inr (Or.inl rfl)⟩
    | false =>
      exact ⟨['m'],
        by simp [unitAlts, List.find?, List.isPrefixOf, h1, h2],
        Or.inr (Or.inr rfl)⟩

/-- Characterization of the strict duration pattern on a decomposed
input: leading digits, then regex whitespace, then a unit word starting
with `h`/`H` (hours) or `m`/`M` (minutes), then arbitrary trailing text. -/
theorem duration_match_decomp (ds ws rest : List Char) (c : Char)
    (hds : ds ≠ []) (hdig : ∀ x ∈ ds, x.isDigit = true)
    (hws : ∀ x ∈ ws, pySpace x = true)
    (hc : c = 'h' ∨ c = 'H' ∨ c = 'm' ∨ c = 'M') :
    duration_match (String.mk (ds ++ ws ++ c :: rest)) =
      some ((if c = 'h' ∨ c = 'H' then 3600 else 60) * (digitVal ds : Int)) := by
  have htl : (String.mk (ds ++ ws ++ c :: rest)).toList = ds ++ (ws ++ c :: rest) := by
    show ds ++ ws ++ c :: rest = ds ++ (ws ++ c :: rest)
    simp [List.append_assoc]
  have hcs : pySpace c = false := by
    rcases hc with h | h | h | h <;> subst h <;> decide
  have hcd : c.isDigit = false := by
    rcases hc with h | h | h | h <;> subst h <;> decide
  have hhead : ∀ x, (ws ++ c :: rest).head? = some x → x.isDigit = false := by
    intro x hx
    cases ws with
    | nil =>
      simp only [List.nil_append, List.head?_cons, Option.some.injEq] at hx
      subst hx; exact hcd
    | cons w ws2 =>
      simp only [List.cons_append, List.head?_cons, Option.some.injEq] at hx
      subst hx
      exact pySpace_not_digit w (hws w (by simp))
  have htake : (ds ++ (ws ++ c :: rest)).takeWhile Char.isDigit = ds := by
    rw [takeWhile_append_of_all _ _ _ hdig,
      takeWhile_head_false _ _ hhead, List.append_nil]
  have hdrop : (ds ++ (ws ++ c :: rest)).dropWhile Char.isDigit = ws ++ c :: rest := by
    rw [dropWhile_append_of_all _ _ _ hdig, dropWhile_head_false _ _ hhead]
  have hdrop2 : (ws ++ c :: rest).dropWhile pySpace = c :: rest := by
    rw [dropWhile_append_of_all _ _ _ hws, List.dropWhile_cons, hcs]
    simp
  simp only [duration_match, htl, htake, hdrop, hdrop2, if_neg hds, List.map_cons]
  rcases hc with h | h | h | h <;> subst h
  · obtain ⟨u, hu, hcls⟩ := find_units_h ((rest.map Char.toLower))
    rw [show Char.toLower 'h' = 'h' from rfl, hu]
    simp only [if_pos hcls]
    simp
  · obtain ⟨u, hu, hcls⟩ := find_units_h ((rest.map Char.toLower))
    rw [show Char.toLower 'H' = 'h' from rfl, hu]
    simp only [if_pos hcls]
    simp
  · obtain ⟨u, hu, hcls⟩ := find_units_m ((rest.map Char.toLower))
    rw [show Char.toLower 'm' = 'm' from rfl, hu]
    have hne : ¬(u = ['h', 'o', 'u', 'r'] ∨ u = ['h', 'r'] ∨ u = ['h']) := by
      rcases hcls with h | h | h <;> subst h <;> decide
    simp only [if_neg hne]
    simp
  · obtain ⟨u, hu, hcls⟩ := find_units_m ((rest.map Char.toLower))
    rw [show Char.toLower 'M' = 'm' from rfl, hu]
    have hne : ¬(u = ['h', 'o', 'u', 'r'] ∨ u = ['h', 'r'] ∨ u = ['h']) := by
      rcases hcls with h | h | h <;> subst h <;> decide
    simp only [if_neg hne]
    simp

/-- C3: with a valid start, no resolved end, and a `duration_str` that
the strict regex pattern matches, the resolved end is start plus the
matched offset (e.g. `2 hours` adds 7200 seconds, `45 minutes` adds
2700 seconds). -/
theorem C3_strict_duration (parse parseDur : String → Option Int)
    (f : ExtractedFields) (sS d : String) (t delta : Int)
    (hS : f.start_time_str = some sS) (hSne : sS ≠ "")
    (hSp : parse sS = some t)
    (hE : f.end_time_str = none ∨
          ∃ sE, f.end_time_str = some sE ∧ (sE = "" ∨ parse sE = none))
    (hD : f.duration_str = some d)
    (hm : duration_match d = some delta) :
    ∃ ev, resolveEvent parse parseDur f = some ev ∧
      ev.start_dt = t ∧ ev.end_dt = t + delta := by
  obtain ⟨ft, fs, fe, fd, fl, fr⟩ := f
  simp only at hS hE hD
  subst hS; subst hD
  have hdne : d ≠ "" := by
    rintro rfl
    rw [show duration_match "" = none by decide] at hm
    exact Option.noConfusion hm
  have hEnd : (truthyStr fe).bind parse = none := by
    rcases hE with h | ⟨sE, hse, h2⟩
    · subst h; rfl
    · subst hse
      rcases h2 with h2 | h2
      · subst h2; rfl
      · by_cases hne : sE = "" <;> simp [truthyStr, hne, h2]
  have hStart : (truthyStr (some sS)).bind parse = some t := by
    simp [truthyStr, hSne, hSp]
  have hDur : truthyStr (some d) = some d := by simp [truthyStr, hdne]
  refine ⟨⟨(truthyStr ft).getD "Event", t, t + delta, fl, fr⟩, ?_, rfl, rfl⟩
  simp [resolveEvent, hStart, hEnd, hDur, hm]

/-- C3 witness: `2 hours` adds 7200 seconds, `45 minutes` adds 2700. -/
theorem C3_strict_duration_witness :
    (∃ ev,
      resolveEvent (fun s => if s = "mon 9am" then some 500 else none)
        (fun _ => none)
        ⟨none, some "mon 9am", none, some "2 hours", none, none⟩ = some ev ∧
      ev.start_dt = 500 ∧ ev.end_dt = 500 + 7200) ∧
    (∃ ev,
      resolveEvent (fun s => if s = "mon 9am" then some 500 else none)
        (fun _ => none)
        ⟨none, some "mon 9am", none, some "45 minutes", none, none⟩ = some ev ∧
      ev.start_dt = 500 ∧ ev.end_dt = 500 + 2700) :=
  ⟨C3_strict_duration (fun s => if s = "mon 9am" then some 500 else none)
      (fun _ => none)
      ⟨none, some "mon 9am", none, some "2 hours", none, none⟩
      "mon 9am" "2 hours" 500 7200 rfl (by decide) rfl (Or.inl rfl) rfl
      (by decide),
   C3_strict_duration (fun s => if s = "mon 9am" then some 500 else none)
      (fun _ => none)
      ⟨none, some "mon 9am", none, some "45 minutes", none, none⟩
      "mon 9am" "45 minutes" 500 2700 rfl (by decide) rfl (Or.inl rfl) rfl
      (by decide)⟩

/-- C4: with a valid start and no resolved end, a `duration_str` that
fails the strict pattern and whose free-form fallback parse yields a
non-positive delta is ignored: the resolved end falls back to
`start + 1 hour`. -/
theorem C4_nonpositive_duration_ignored (parse parseDur : String → Option Int)
    (f : ExtractedFields) (sS d : String) (t delta : Int)
    (hS : f.start_time_str = some sS) (hSne : sS ≠ "")
    (hSp : parse sS = some t)
    (hE : f.end_time_str = none ∨
          ∃ sE, f.end_time_str = some sE ∧ (sE = "" ∨ parse sE = none))
    (hD : f.duration_str = some d) (hdne : d ≠ "")
    (hm : duration_match d = none)
    (hfb : parseDur d = some delta) (hnp : delta ≤ 0) :
    ∃ ev, resolveEvent parse parseDur f = some ev ∧
      ev.start_dt = t ∧ ev.end_dt = t + 3600 := by
  obtain ⟨ft, fs, fe, fd, fl, fr⟩ := f
  simp only at hS hE hD
  subst hS; subst hD
  have hEnd : (truthyStr fe).bind parse = none := by
    rcases hE with h | ⟨sE, hse, h2⟩
    · subst h; rfl
    · subst hse
      rcases h2 with h2 | h2
      · subst h2; rfl
      · by_cases hne : sE = "" <;> simp [truthyStr, hne, h2]
  have hStart : (truthyStr (some sS)).bind parse = some t := by
    simp [truthyStr, hSne, hSp]
  have hDur : truthyStr (some d) = some d := by simp [truthyStr, hdne]
  refine ⟨⟨(truthyStr ft).getD "Event", t, t + 3600, fl, fr⟩, ?_, rfl, rfl⟩
  simp [resolveEvent, hStart, hEnd, hDur, hm, hfb, if_neg (not_lt.mpr hnp)]

/-- C4 witness: the fallback delta of `-5 minutes` (-300 seconds) is
ignored; the end defaults to start + 3600. -/
theorem C4_nonpositive_duration_ignored_witness :
    ∃ ev,
      resolveEvent (fun s => if s = "fri noon" then some 900 else none)
        (fun s => if s = "-5 minutes" then some (-300) else none)
        ⟨none, some "fri noon", none, some "-5 minutes", none, none⟩ =
          some ev ∧
      ev.start_dt = 900 ∧ ev.end_dt = 900 + 3600 :=
  C4_nonpositive_duration_ignored
    (fun s => if s = "fri noon" then some 900 else none)
    (fun s => if s = "-5 minutes" then some (-300) else none)
    ⟨none, some "fri noon", none, some "-5 minutes", none, none⟩
    "fri noon" "-5 minutes" 900 (-300) rfl (by decide) (by decide)
    (Or.inl rfl) rfl (by decide) (by decide) (by decide) (by decide)

/-- C8: when both start and end strings parse and the parsed end is
strictly before the parsed start, the resolver keeps that end unchanged:
no swap, no rejection, no duration or default logic. -/
theorem C8_end_before_start_kept (parse parseDur : String → Option Int)
    (f : ExtractedFields) (sS sE : String) (t te : Int)
    (hS : f.start_time_str = some sS) (hSne : sS ≠ "")
    (hSp : parse sS = some t)
    (hEe : f.end_time_str = some sE) (hEne : sE ≠ "")
    (hEp : parse sE = some te)
    (hlt : te < t) :
    ∃ ev, resolveEvent parse parseDur f = some ev ∧
      ev.start_dt = t ∧ ev.end_dt = te := by
  obtain ⟨ft, fs, fe, fd, fl, fr⟩ := f
  simp only at hS hEe
  subst hS; subst hEe
  have hStart : (truthyStr (some sS)).bind parse = some t := by
    simp [truthyStr, hSne, hSp]
  have hEnd : (truthyStr (some sE)).bind parse = some te := by
    simp [truthyStr, hEne, hEp]
  refine ⟨⟨(truthyStr ft).getD "Event", t, te, fl, fr⟩, ?_, rfl, rfl⟩
  simp [resolveEvent, hStart, hEnd]

/-- C8 witness: end parsed to 500, start parsed to 1000; the event keeps
end 500 < start 1000. -/
theorem C8_end_before_start_kept_witness :
    ∃ ev,
      resolveEvent
        (fun s => if s = "5pm" then some 1000 else
                  if s = "4pm" then some 500 else none)
        (fun _ => none)
        ⟨none, some "5pm", some "4pm", some "2 hours", none, none⟩ =
          some ev ∧
      ev.start_dt = 1000 ∧ ev.end_dt = 500 :=
  C8_end_before_start_kept
    (fun s => if s = "5pm" then some 1000 else
              if s = "4pm" then some 500 else none)
    (fun _ => none)
    ⟨none, some "5pm", some "4pm", some "2 hours", none, none⟩
    "5pm" "4pm" 1000 500 rfl (by decide) rfl rfl (by decide) rfl
    (by decide)

/-- C10: the strict duration pattern is an anchored prefix match: for a
`duration_str` of digits, then regex whitespace, then any word starting
with `m`/`M` (not necessarily a minute word, e.g. `2 months`), the value
is taken as minutes; a word starting with `h`/`H` is taken as hours, and
any trailing text after the matched prefix (e.g. `2 hours or so`) is
silently ignored. -/
theorem C10_prefix_match_months_as_minutes
    (parse parseDur : String → Option Int)
    (f : ExtractedFields) (sS : String) (t : Int)
    (ds ws rest : List Char) (c : Char)
    (hS : f.start_time_str = some sS) (hSne : sS ≠ "")
    (hSp : parse sS = some t)
    (hE : f.end_time_str = none ∨
          ∃ sE, f.end_time_str = some sE ∧ (sE = "" ∨ parse sE = none))
    (hD : f.duration_str = some (String.mk (ds ++ ws ++ c :: rest)))
    (hds : ds ≠ []) (hdig : ∀ x ∈ ds, x.isDigit = true)
    (hws : ∀ x ∈ ws, pySpace x = true)
    (hc : c = 'h' ∨ c = 'H' ∨ c = 'm' ∨ c = 'M') :
    ∃ ev, resolveEvent parse parseDur f = some ev ∧ ev.start_dt = t ∧
      ev.end_dt =
        t + (if c = 'h' ∨ c = 'H' then 3600 else 60) * (digitVal ds : Int) := by
  have hm := duration_match_decomp ds ws rest c hds hdig hws hc
  rw [List.append_assoc] at hm hD
  have hdne : String.mk (ds ++ (ws ++ c :: rest)) ≠ "" := by
    intro h
    have h2 : (String.mk (ds ++ (ws ++ c :: rest))).data = "".data :=
      congrArg String.data h
    simp at h2
  obtain ⟨ft, fs, fe, fd, fl, fr⟩ := f
  simp only at hS hE hD
  subst hS; subst hD
  have hEnd : (truthyStr fe).bind parse = none := by
    rcases hE with h | ⟨sE, hse, h2⟩
    · subst h; rfl
    · subst hse
      rcases h2 with h2 | h2
      · subst h2; rfl
      · by_cases hne : sE = "" <;> simp [truthyStr, hne, h2]
  have hStart : (truthyStr (some sS)).bind parse = some t := by
    simp [truthyStr, hSne, hSp]
  have hDur : truthyStr (some (String.mk (ds ++ (ws ++ c :: rest)))) =
      some (String.mk (ds ++ (ws ++ c :: rest))) := by
    simp [truthyStr, hdne]
  refine ⟨⟨(truthyStr ft).getD "Event", t,
    t + (if c = 'h' ∨ c = 'H' then 3600 else 60) * (digitVal ds : Int),
    fl, fr⟩, ?_, rfl, rfl⟩
  simp [resolveEvent, hStart, hEnd, hDur, hm]

/-- C10 witness: `2 months` is interpreted as 2 minutes (end = start +
120 seconds). -/
theorem C10_prefix_match_months_as_minutes_witness :
    ∃ ev,
      resolveEvent (fun s => if s = "june 1" then some 0 else none)
        (fun _ => none)
        ⟨none, some "june 1", none,
          some (String.mk ['2', ' ', 'm', 'o', 'n', 't', 'h', 's']),
          none, none⟩ = some ev ∧
      ev.start_dt = 0 ∧ ev.end_dt = 120 := by
  have h := C10_prefix_match_months_as_minutes
    (fun s => if s = "june 1" then some 0 else none) (fun _ => none)
    ⟨none, some "june 1", none,
      some (String.mk ['2', ' ', 'm', 'o', 'n', 't', 'h', 's']),
      none, none⟩
    "june 1" 0 ['2'] [' '] ['o', 'n', 't', 'h', 's'] 'm'
    rfl (by decide) rfl (Or.inl rfl) rfl (by decide) (by decide)
    (by decide) (by decide)
  simpa using h

/-- Left strip of Python `str.strip()` (whitespace model as in `pySpace`). -/
def trimLeftPy (cs : List Char) : List Char := cs.dropWhile pySpace

/-- Right strip of Python `str.strip()`. -/
def trimRightPy (cs : List Char) : List Char :=
  (cs.reverse.dropWhile pySpace).reverse

/-- Python `str.strip()`: removes leading and trailing whitespace. -/
def pyStrip (cs : List Char) : List Char := trimLeftPy (trimRightPy cs)

/-- The only fence opener the code strips: the 7 characters of the
literal in `llm_output_text.startswith("```json")`. -/
def fenceOpen : List Char := ['`', '`', '`', 'j', 's', 'o', 'n']

/-- The fence closer the code strips, per `llm_output_text.endswith("```")`. -/
def fenceClose : List Char := ['`', '`', '`']

/-- telegram_bot.py lines 125-135: strip whitespace, drop a leading
literal \x60\x60\x60json (7 chars) if present, drop a trailing
\x60\x60\x60 (3 chars) if present, strip again.  This is the exact text
handed to `json.loads`. -/
def extractChars (cs : List Char) : List Char :=
  let t1 := pyStrip cs
  let t2 := if fenceOpen.isPrefixOf t1 then t1.drop 7 else t1
  let t3 := if fenceClose.isSuffixOf t2 then t2.take (t2.length - 3) else t2
  pyStrip t3

/-- String-level wrapper of `extractChars`. -/
def extractText (raw : String) : String := String.mk (extractChars raw.toList)

/-- JSON values, as decoded by `json.loads` (numbers restricted to the
integers actually used by the seven event fields; the model rejects
floats and \u escapes, which no claim exercises). -/
inductive JVal where
  | jnull : JVal
  | jbool : Bool → JVal
  | jint : Int → JVal
  | jstr : String → JVal
  | jarr : List JVal → JVal
  | jobj : List (String × JVal) → JVal

/-- The opening-brace character, written via its code point. -/
def lbrace : Char := Char.ofNat 123

/-- The closing-brace character, written via its code point. -/
def rbrace : Char := Char.ofNat 125

/-- JSON inter-token whitespace accepted by `json.loads`. -/
def skipJsonWS (cs : List Char) : List Char :=
  cs.dropWhile (fun c => c = ' ' || c = '\t' || c = '\n' || c = '\r')

/-- Expect a literal character sequence. -/
def parseLit (pat : List Char) (cs : List Char) : Option (List Char) :=
  if pat.isPrefixOf cs then some (cs.drop pat.length) else none

/-- JSON string body after the opening quote: returns the decoded
characters and the remainder after the closing quote. -/
def parseJStr : Nat → List Char → Option (List Char × List Char)
  | 0, _ => none
  | fuel + 1, cs =>
    match cs with
    | [] => none
    | c :: rest =>
      if c = '"' then some ([], rest)
      else if c = '\\' then
        match rest with
        | [] => none
        | e :: rest2 =>
          let dec : Option Char :=
            if e = '"' then some '"'
            else if e = '\\' then some '\\'
            else if e = '/' then some '/'
            else if e = 'n' then some '\n'
            else if e = 't' then some '\t'
            else if e = 'r' then some '\r'
            else if e = 'b' then some '\x08'
            else if e = 'f' then some '\x0c'
            else none
          match dec with
          | none => none
          | some ch =>
            match parseJStr fuel rest2 with
            | some (s, r) => some (ch :: s, r)
            | none => none
      else
        match parseJStr fuel rest with
        | some (s, r) => some (c :: s, r)
        | none => none

/-- JSON integer literal (optional minus then digits); fails on a float
or exponent suffix, which this model does not support. -/
def parseJInt (cs : List Char) : Option (Int × List Char) :=
  let signAndRest : Bool × List Char :=
    match cs with
    | c :: rest => if c = '-' then (true, rest) else (false, cs)
    | [] => (false, [])
  let ds := signAndRest.2.takeWhile Char.isDigit
  let rest := signAndRest.2.dropWhile Char.isDigit
  if ds = [] then none
  else
    let v : Int := if signAndRest.1 then -(digitVal ds : Int) else (digitVal ds : Int)
    match rest with
    | c :: _ => if c = '.' || c = 'e' || c = 'E' then none else some (v, rest)
    | [] => some (v, [])

mutual

/-- Recursive-descent JSON value parser modelling `json.loads`
(fueled; the fuel is an upper bound on nesting and always suffices at
the concrete inputs evaluated in this file). -/
def parseJVal : Nat → List Char → Option (JVal × List Char)
  | 0, _ => none
  | fuel + 1, cs =>
    match skipJsonWS cs with
    | [] => none
    | c :: rest =>
      if c = 'n' then (parseLit ['u', 'l', 'l'] rest).map (fun r => (JVal.jnull, r))
      else if c = 't' then
        (parseLit ['r', 'u', 'e'] rest).map (fun r => (JVal.jbool true, r))
      else if c = 'f' then
        (parseLit ['a', 'l', 's', 'e'] rest).map (fun r => (JVal.jbool false, r))
      else if c = '"' then
        match parseJStr fuel rest with
        | some (s, r) => some (JVal.jstr (String.mk s), r)
        | none => none
      else if c = '[' then
        match skipJsonWS rest with
        | ']' :: r2 => some (JVal.jarr [], r2)
        | _ =>
          match parseJArrItems fuel rest with
          | some (xs, r) => some (JVal.jarr xs, r)
          | none => none
      else if c = lbrace then
        match skipJsonWS rest with
        | c2 :: r2 =>
          if c2 = rbrace then some (JVal.jobj [], r2)
          else
            match parseJObjItems fuel rest with
            | some (kvs, r) => some (JVal.jobj kvs, r)
            | none => none
        | [] => none
      else
        match parseJInt (c :: rest) with
        | some (v, r) => some (JVal.jint v, r)
        | none => none

/-- Comma-separated array items up to the closing bracket. -/
def parseJArrItems : Nat → List Char → Option (List JVal × List Char)
  | 0, _ => none
  | fuel + 1, cs =>
    match parseJVal fuel cs with
    | none => none
    | some (v, r) =>
      match skipJsonWS r with
      | ',' :: r2 =>
        match parseJArrItems fuel r2 with
        | some (xs, r3) => some (v :: xs, r3)
        | none => none
      | ']' :: r2 => some ([v], r2)
      | _ => none

/-- Comma-separated `"key": value` pairs up to the closing brace. -/
def parseJObjItems : Nat → List Char → Option (List (String × JVal) × List Char)
  | 0, _ => none
  | fuel + 1, cs =>
    match skipJsonWS cs with
    | '"' :: r =>
      match parseJStr fuel r with
      | none => none
      | some (k, r2) =>
        match skipJsonWS r2 with
        | ':' :: r3 =>
          match parseJVal fuel r3 with
          | none => none
          | some (v, r4) =>
            match skipJsonWS r4 with
            | ',' :: r5 =>
              match parseJObjItems fuel r5 with
              | some (kvs, r6) => some ((String.mk k, v) :: kvs, r6)
              | none => none
            | c2 :: r5 =>
              if c2 = rbrace then some ([(String.mk k, v)], r5) else none
            | [] => none
        | _ => none
    | _ => none

end

/-- `json.loads`: one JSON value, then only trailing whitespace
(`Extra data` otherwise raises, modelled as `none`). -/
def json_loads (s : String) : Option JVal :=
  let cs := s.toList
  match parseJVal (cs.length + 1) cs with
  | some (v, r) => if skipJsonWS r = [] then some v else none
  | none => none

/-- Python `dict.get` on the decoded object; JSON object decoding keeps
the last duplicate of a key, which the fold mirrors. -/
def dictGet (kvs : List (String × JVal)) (k : String) : Option JVal :=
  kvs.foldl (fun acc p => if p.1 = k then some p.2 else acc) none

/-- A field fetched by `.get(key)` when it holds a JSON string
(JSON `null` and a missing key are both Python `None`). -/
def getStrField (kvs : List (String × JVal)) (k : String) : Option String :=
  match dictGet kvs k with
  | some (JVal.jstr s) => some s
  | _ => none

/-- A field fetched by `.get(key)` when it holds a JSON integer. -/
def getIntField (kvs : List (String × JVal)) (k : String) : Option Int :=
  match dictGet kvs k with
  | some (JVal.jint n) => some n
  | _ => none

/-- telegram_bot.py lines 155-163: the falsy-dict check
(`if not extracted_data`) then the seven `.get` calls.  A decoded value
that is not an object cannot reach the `.get` stage and yields no
fields. -/
def fieldsOfJson : JVal → Option ExtractedFields
  | JVal.jobj [] => none
  | JVal.jobj kvs =>
    some ⟨getStrField kvs "title", getStrField kvs "start_time_str",
      getStrField kvs "end_time_str", getStrField kvs "duration_str",
      getStrField kvs "location", getIntField kvs "reminder"⟩
  | _ => none

/-- The structured-output parsing pipeline of
`parse_event_from_text_gemini` lines 125-163: fence stripping, JSON
decoding, field extraction.  `none` is the `Malformed` (or falsy/non-
object) outcome. -/
def extract_fields (raw : String) : Option ExtractedFields :=
  match json_loads (extractText raw) with
  | some j => fieldsOfJson j
  | none => none

/-- `trimLeftPy` is the identity when the first character is not
whitespace. -/
theorem trimLeft_eq_self (l : List Char)
    (h : ∀ c, l.head? = some c → pySpace c = false) :
    trimLeftPy l = l :=
  dropWhile_head_false pySpace l h

/-- `trimRightPy` is the identity when the last character is not
whitespace. -/
theorem trimRight_eq_self (l : List Char)
    (h : ∀ c, l.getLast? = some c → pySpace c = false) :
    trimRightPy l = l := by
  unfold trimRightPy
  rw [dropWhile_head_false pySpace l.reverse, List.reverse_reverse]
  intro c hc
  apply h
  rwa [List.head?_reverse] at hc

/-- `pyStrip` is the identity on an already-stripped list. -/
theorem pyStrip_eq_self (l : List Char)
    (hhead : ∀ c, l.head? = some c → pySpace c = false)
    (hlast : ∀ c, l.getLast? = some c → pySpace c = false) :
    pyStrip l = l := by
  unfold pyStrip
  rw [trimRight_eq_self l hlast, trimLeft_eq_self l hhead]

/-- Stripping removes exactly the newline padding around an
already-stripped list. -/
theorem pyStrip_pad (J : List Char)
    (hhead : ∀ c, J.head? = some c → pySpace c = false)
    (hlast : ∀ c, J.getLast? = some c → pySpace c = false) :
    pyStrip ('\n' :: (J ++ ['\n'])) = J := by
  have hnl : pySpace '\n' = true := rfl
  cases J with
  | nil => decide
  | cons a as =>
    have hha : pySpace a = false := hhead a rfl
    obtain ⟨c0, R0, hrev⟩ : ∃ c0 R0, (a :: as).reverse = c0 :: R0 :=
      List.exists_cons_of_ne_nil (by simp)
    have hc0 : pySpace c0 = false := by
      apply hlast
      rw [← List.head?_reverse, hrev]
      rfl
    have e1 : ('\n' :: ((a :: as) ++ ['\n'])).reverse =
        '\n' :: ((c0 :: R0) ++ ['\n']) := by
      rw [← hrev]; simp
    have e2 : ((c0 :: R0) ++ ['\n']).reverse = '\n' :: (a :: as) := by
      rw [← hrev]; simp
    have e3 : List.dropWhile pySpace ('\n' :: ((c0 :: R0) ++ ['\n'])) =
        c0 :: (R0 ++ ['\n']) := by
      simp [List.dropWhile_cons, hnl, hc0]
    have e4 : List.dropWhile pySpace ('\n' :: (a :: as)) = a :: as := by
      simp [List.dropWhile_cons, hnl, hha]
    unfold pyStrip trimRightPy trimLeftPy
    rw [e1, e3, show c0 :: (R0 ++ ['\n']) = (c0 :: R0) ++ ['\n'] from rfl,
      e2, e4]

/-- A list is a prefix of itself followed by anything. -/
theorem isPrefixOf_self_append (l t : List Char) :
    l.isPrefixOf (l ++ t) = true := by
  induction l with
  | nil => simp [List.isPrefixOf]
  | cons a as ih => simp [List.isPrefixOf, ih]

/-- C5 (amended): only a fence whose opening line is exactly the literal
\x60\x60\x60json (and whose closing is \x60\x60\x60) is stripped: for
every stripped text `J` that does not itself start with that opener or
end with a closer, wrapping it as \x60\x60\x60json\n`J`\n\x60\x60\x60
is parsed to exactly the same `ExtractedFields` as `J` alone, because
the text handed to `json.loads` is `J` in both cases.  (The original
claim, for an arbitrary markdown fence, is refuted by
`C5_arbitrary_fence_counterexample`.) -/
theorem C5_json_fence_transparent (J : List Char)
    (hhead : ∀ c, J.head? = some c → pySpace c = false)
    (hlast : ∀ c, J.getLast? = some c → pySpace c = false)
    (hpre : fenceOpen.isPrefixOf J = false)
    (hsuf : fenceClose.isSuffixOf J = false) :
    extractChars (fenceOpen ++ '\n' :: (J ++ '\n' :: fenceClose)) = J ∧
    extractChars J = J ∧
    extract_fields (String.mk (fenceOpen ++ '\n' :: (J ++ '\n' :: fenceClose))) =
      extract_fields (String.mk J) := by
  have hwrapped :
      extractChars (fenceOpen ++ '\n' :: (J ++ '\n' :: fenceClose)) = J := by
    have hstrip1 :
        pyStrip (fenceOpen ++ '\n' :: (J ++ '\n' :: fenceClose)) =
          fenceOpen ++ '\n' :: (J ++ '\n' :: fenceClose) := by
      apply pyStrip_eq_self
      · intro c hc
        simp only [fenceOpen, List.cons_append, List.head?_cons,
          Option.some.injEq] at hc
        subst hc; rfl
      · intro c hc
        rw [show fenceOpen ++ '\n' :: (J ++ '\n' :: fenceClose) =
            (fenceOpen ++ '\n' :: (J ++ ['\n', '`', '`'])) ++ ['`'] by
          simp [fenceClose], List.getLast?_concat, Option.some.injEq] at hc
        subst hc; rfl
    have hpre1 :
        fenceOpen.isPrefixOf (fenceOpen ++ '\n' :: (J ++ '\n' :: fenceClose)) = true :=
      isPrefixOf_self_append _ _
    have hdrop :
        (fenceOpen ++ '\n' :: (J ++ '\n' :: fenceClose)).drop 7 =
          '\n' :: (J ++ '\n' :: fenceClose) := by
      rw [show (7 : Nat) = fenceOpen.length from rfl, List.drop_left]
    have hshape :
        ('\n' :: (J ++ '\n' :: fenceClose)) =
          ('\n' :: (J ++ ['\n'])) ++ fenceClose := by simp
    have hsuf1 :
        fenceClose.isSuffixOf ('\n' :: (J ++ '\n' :: fenceClose)) = true := by
      rw [hshape]
      unfold List.isSuffixOf
      rw [List.reverse_append]
      exact isPrefixOf_self_append _ _
    have htake :
        ('\n' :: (J ++ '\n' :: fenceClose)).take
          (('\n' :: (J ++ '\n' :: fenceClose)).length - 3) =
          '\n' :: (J ++ ['\n']) := by
      rw [hshape]
      have hlen : (('\n' :: (J ++ ['\n'])) ++ fenceClose).length - 3 =
          ('\n' :: (J ++ ['\n'])).length := by
        simp [fenceClose]
      rw [hlen, List.take_left]
    have := pyStrip_pad J hhead hlast
    simp only [extractChars, hstrip1, hpre1, hdrop, hsuf1, htake, if_true, this]
  have hplain : extractChars J = J := by
    simp only [extractChars, pyStrip_eq_self J hhead hlast, hpre, hsuf,
      Bool.false_eq_true, if_false]
  refine ⟨hwrapped, hplain, ?_⟩
  unfold extract_fields extractText
  rw [show (String.mk (fenceOpen ++ '\n' :: (J ++ '\n' :: fenceClose))).toList
      = fenceOpen ++ '\n' :: (J ++ '\n' :: fenceClose) from rfl,
    show (String.mk J).toList = J from rfl, hwrapped, hplain]

/-- Helper to discharge the head-side strip hypothesis at a concrete list. -/
theorem not_ws_head_of (l : List Char) (a : Char)
    (hg : l.head? = some a) (h : pySpace a = false) :
    ∀ c, l.head? = some c → pySpace c = false := by
  intro c hc
  rw [hg, Option.some.injEq] at hc
  subst hc; exact h

/-- Helper to discharge the last-side strip hypothesis at a concrete list. -/
theorem not_ws_last_of (l : List Char) (a : Char)
    (hg : l.getLast? = some a) (h : pySpace a = false) :
    ∀ c, l.getLast? = some c → pySpace c = false := by
  intro c hc
  rw [hg, Option.some.injEq] at hc
  subst hc; exact h

/-- A sample JSON object text used at concrete evaluations. -/
def sampleJson : List Char := "\x7b\"title\": \"Sync\"\x7d".toList

/-- C5 witness: at the sample object, the \x60\x60\x60json fence is
transparent. -/
theorem C5_json_fence_transparent_witness :
    extractChars (fenceOpen ++ '\n' :: (sampleJson ++ '\n' :: fenceClose)) =
      sampleJson ∧
    extractChars sampleJson = sampleJson ∧
    extract_fields (String.mk (fenceOpen ++ '\n' :: (sampleJson ++ '\n' :: fenceClose))) =
      extract_fields (String.mk sampleJson) :=
  C5_json_fence_transparent sampleJson
    (not_ws_head_of sampleJson lbrace (by decide) (by decide))
    (not_ws_last_of sampleJson rbrace (by decide) (by decide))
    (by decide) (by decide)

/-- C5 counterexample: a plain \x60\x60\x60 fence (no `json` tag) is a
markdown code fence the model may emit, but the code does not strip its
opener, so decoding fails (`Malformed`, no fields), while the unwrapped
text parses to fields — refuting the claim for arbitrary fences. -/
theorem C5_arbitrary_fence_counterexample :
    extract_fields (String.mk (fenceClose ++ '\n' :: (sampleJson ++ '\n' :: fenceClose))) =
      none ∧
    extract_fields (String.mk sampleJson) =
      some ⟨some "Sync", none, none, none, none, none⟩ ∧
    extract_fields (String.mk (fenceClose ++ '\n' :: (sampleJson ++ '\n' :: fenceClose))) ≠
      extract_fields (String.mk sampleJson) :=
  ⟨by decide, by decide, by decide⟩

/-- A Python `datetime` as the formatter sees it: the zone-local
wall-clock fields plus the tzinfo utc offset.  `strftime` renders the
stored wall-clock fields and never consults the offset. -/
structure PyDateTime where
  year : Nat
  month : Nat
  day : Nat
  hour : Nat
  minute : Nat
  second : Nat
  microsecond : Nat
  utcOffsetMinutes : Int
deriving Repr, DecidableEq

/-- The ASCII digit character for a value below ten. -/
def d2c (n : Nat) : Char := Char.ofNat (48 + n)

/-- The characters of `start_dt.strftime("%Y%m%dT%H%M%S")`
(telegram_bot.py lines 262-263): zero-padded wall-clock fields, no UTC
conversion.  Faithful to the platform `%Y` for the four-digit years the
round-trip theorem assumes. -/
def compactChars (d : PyDateTime) : List Char :=
  [d2c (d.year / 1000 % 10), d2c (d.year / 100 % 10),
   d2c (d.year / 10 % 10), d2c (d.year % 10),
   d2c (d.month / 10 % 10), d2c (d.month % 10),
   d2c (d.day / 10 % 10), d2c (d.day % 10),
   'T',
   d2c (d.hour / 10 % 10), d2c (d.hour % 10),
   d2c (d.minute / 10 % 10), d2c (d.minute % 10),
   d2c (d.second / 10 % 10), d2c (d.second % 10)]

/-- `strftime("%Y%m%dT%H%M%S")` as a string. -/
def strftime_compact (d : PyDateTime) : String := String.mk (compactChars d)

/-- Gregorian leap year, as `datetime` validates dates. -/
def isLeapYear (y : Nat) : Bool :=
  (y % 4 = 0 && !(y % 100 = 0)) || y % 400 = 0

/-- Days in a month, as `datetime` validates dates. -/
def daysInMonth (y m : Nat) : Nat :=
  if m = 2 then (if isLeapYear y then 29 else 28)
  else if m = 4 || m = 6 || m = 9 || m = 11 then 30
  else 31

/-- Field ranges of a constructible `datetime` whose year prints as four
digits under `%Y`. -/
def validPy (d : PyDateTime) : Prop :=
  1000 ≤ d.year ∧ d.year ≤ 9999 ∧ 1 ≤ d.month ∧ d.month ≤ 12 ∧
  1 ≤ d.day ∧ d.day ≤ daysInMonth d.year d.month ∧
  d.hour ≤ 23 ∧ d.minute ≤ 59 ∧ d.second ≤ 59

instance (d : PyDateTime) : Decidable (validPy d) := by
  unfold validPy
  infer_instance

/-- `datetime.strptime(s, "%Y%m%dT%H%M%S")`: fifteen characters, a
literal `T` in the middle, digits elsewhere, and field values a
`datetime` accepts; the result is naive with microsecond 0. -/
def strptime_compact (s : String) : Option PyDateTime :=
  match s.toList with
  | [y1, y2, y3, y4, m1, m2, d1, d2, tc, h1, h2, n1, n2, s1, s2] =>
    if y1.isDigit ∧ y2.isDigit ∧ y3.isDigit ∧ y4.isDigit ∧
       m1.isDigit ∧ m2.isDigit ∧ d1.isDigit ∧ d2.isDigit ∧
       tc = 'T' ∧ h1.isDigit ∧ h2.isDigit ∧ n1.isDigit ∧ n2.isDigit ∧
       s1.isDigit ∧ s2.isDigit then
      let y := 1000 * c2d y1 + 100 * c2d y2 + 10 * c2d y3 + c2d y4
      let mo := 10 * c2d m1 + c2d m2
      let dy := 10 * c2d d1 + c2d d2
      let hh := 10 * c2d h1 + c2d h2
      let mi := 10 * c2d n1 + c2d n2
      let ss := 10 * c2d s1 + c2d s2
      if 1 ≤ y ∧ 1 ≤ mo ∧ mo ≤ 12 ∧ 1 ≤ dy ∧ dy ≤ daysInMonth y mo ∧
         hh ≤ 23 ∧ mi ≤ 59 ∧ ss ≤ 59 then
        some ⟨y, mo, dy, hh, mi, ss, 0, 0⟩
      else none
    else none
  | _ => none

/-- What `strptime` can recover: the wall clock truncated to whole
seconds, with no tzinfo. -/
def wallTrunc (d : PyDateTime) : PyDateTime :=
  { d with microsecond := 0, utcOffsetMinutes := 0 }

/-- A one-digit rendering is a digit character. -/
theorem d2c_mod_isDigit (n : Nat) : (d2c (n % 10)).isDigit = true := by
  have h : n % 10 < 10 := Nat.mod_lt _ (by norm_num)
  interval_cases hk : n % 10 <;> decide

/-- Reading back a one-digit rendering. -/
theorem c2d_d2c_mod (n : Nat) : c2d (d2c (n % 10)) = n % 10 := by
  have h : n % 10 < 10 := Nat.mod_lt _ (by norm_num)
  interval_cases hk : n % 10 <;> decide

/-- `daysInMonth` never exceeds 31. -/
theorem daysInMonth_le (y m : Nat) : daysInMonth y m ≤ 31 := by
  unfold daysInMonth
  split_ifs <;> omega

/-- Round-trip: parsing the compact rendering with the same fixed format
recovers the wall clock truncated to whole seconds. -/
theorem strptime_strftime (d : PyDateTime) (h : validPy d) :
    strptime_compact (strftime_compact d) = some (wallTrunc d) := by
  obtain ⟨y, mo, dy, hh, mi, ss, us, off⟩ := d
  obtain ⟨hy1, hy2, hm1, hm2, hd1, hd2, hh7, hn8, hs9⟩ := h
  simp only at hy1 hy2 hm1 hm2 hd1 hd2 hh7 hn8 hs9
  have hdy31 : dy ≤ 31 := le_trans hd2 (daysInMonth_le y mo)
  have htl : (strftime_compact ⟨y, mo, dy, hh, mi, ss, us, off⟩).toList =
      compactChars ⟨y, mo, dy, hh, mi, ss, us, off⟩ := rfl
  simp only [strptime_compact, htl, compactChars]
  have hyval : 1000 * (y / 1000 % 10) + 100 * (y / 100 % 10) +
      10 * (y / 10 % 10) + y % 10 = y := by omega
  have hmoval : 10 * (mo / 10 % 10) + mo % 10 = mo := by omega
  have hdyval : 10 * (dy / 10 % 10) + dy % 10 = dy := by omega
  have hhhval : 10 * (hh / 10 % 10) + hh % 10 = hh := by omega
  have hmival : 10 * (mi / 10 % 10) + mi % 10 = mi := by omega
  have hssval : 10 * (ss / 10 % 10) + ss % 10 = ss := by omega
  simp only [d2c_mod_isDigit, c2d_d2c_mod, hyval, hmoval, hdyval, hhhval,
    hmival, hssval]
  rw [if_pos ⟨trivial, trivial, trivial, trivial, trivial, trivial, trivial,
    trivial, trivial, trivial, trivial, trivial, trivial, trivial, trivial⟩]
  rw [if_pos ⟨by omega, by omega, hm2, by omega, hd2, hh7, hn8, hs9⟩]
  rfl

/-- `title.replace(" ", "+")` (telegram_bot.py lines 273-274). -/
def encodePlus (s : String) : String :=
  String.mk (s.toList.map (fun c => if c = ' ' then '+' else c))

/-- The Google Calendar deep link of telegram_bot.py lines 262-282:
base URL with encoded title and the compact `dates=` pair, then
`&location=` only when the encoded location is truthy (non-empty), then
`&reminders=popup%3A<minutes>` only when `reminder` is truthy
(present and non-zero). -/
def gcal_link (title : String) (start_dt end_dt : PyDateTime)
    (location : Option String) (reminder : Option Int) : String :=
  let start_str := strftime_compact start_dt
  let end_str := strftime_compact end_dt
  let event_title_encoded := encodePlus title
  let location_encoded :=
    match location with
    | some l => encodePlus l
    | none => ""
  let link := "https://calendar.google.com/calendar/render?action=TEMPLATE&text="
    ++ event_title_encoded ++ "&dates=" ++ start_str ++ "/" ++ end_str
  let link2 := if location_encoded ≠ "" then link ++ "&location=" ++ location_encoded
    else link
  match reminder with
  | some r => if r ≠ 0 then link2 ++ "&reminders=popup%3A" ++ toString r else link2
  | none => link2

/-- The characters of `strftime("%Y-%m-%d %H:%M")` used in the display
message (telegram_bot.py lines 288-290). -/
def displayChars (d : PyDateTime) : List Char :=
  [d2c (d.year / 1000 % 10), d2c (d.year / 100 % 10),
   d2c (d.year / 10 % 10), d2c (d.year % 10), '-',
   d2c (d.month / 10 % 10), d2c (d.month % 10), '-',
   d2c (d.day / 10 % 10), d2c (d.day % 10), ' ',
   d2c (d.hour / 10 % 10), d2c (d.hour % 10), ':',
   d2c (d.minute / 10 % 10), d2c (d.minute % 10)]

/-- `strftime("%Y-%m-%d %H:%M")` as a string. -/
def strftime_display (d : PyDateTime) : String := String.mk (displayChars d)

/-- The reminder line of telegram_bot.py lines 294-300: 60 renders as
one hour, other values that are at least 60 and divisible by 60 render
as `reminder // 60` hours (Python floor division), anything else as
minutes. -/
def reminder_display (r : Int) : String :=
  if r = 60 then "Reminder: 1 hour before"
  else if 60 ≤ r ∧ r % 60 = 0 then
    "Reminder: " ++ toString (Int.fdiv r 60) ++ " hours before"
  else "Reminder: " ++ toString r ++ " minutes before"

/-- The `message_parts` list of telegram_bot.py lines 284-303: header,
start and end lines (the end datetime is always truthy), the location
line when `location` is truthy, the reminder line when `reminder` is
truthy, then the link lines. -/
def message_parts (title : String) (start_dt end_dt : PyDateTime)
    (location : Option String) (reminder : Option Int) : List String :=
  ["<b>Event Created (via Gemini):</b> " ++ title,
   "Start: " ++ strftime_display start_dt ++ " (Israel Time)",
   "End: " ++ strftime_display end_dt ++ " (Israel Time)"]
  ++ (match location with
      | some l => if l ≠ "" then ["Location: " ++ l] else []
      | none => [])
  ++ (match reminder with
      | some r => if r ≠ 0 then [reminder_display r] else []
      | none => [])
  ++ ["\n<b>Add this event to your calendar:</b>",
      "<a href=\x27" ++ gcal_link title start_dt end_dt location reminder
        ++ "\x27>Add to Google Calendar</a>"]

/-- Appending under a conditional, pulled out to the right. -/
theorem if_append (b : Prop) [Decidable b] (s x : String) :
    (if b then s ++ x else s) = s ++ (if b then x else "") := by
  split
  · rfl
  · rw [String.append_empty]

/-- C7: the link contains `dates=<startcompact>/<endcompact>`, each
compact string is the zone-local wall clock as `YYYYMMDDTHHMMSS`,
re-parsing each with the fixed format recovers the original wall clock
truncated to whole seconds, and the rendering ignores the utc offset
(no UTC conversion). -/
theorem C7_compact_dates_roundtrip (title : String) (s e : PyDateTime)
    (loc : Option String) (rem : Option Int)
    (hs : validPy s) (he : validPy e) :
    (∃ pre post, gcal_link title s e loc rem =
      pre ++ ("dates=" ++ strftime_compact s ++ "/" ++ strftime_compact e)
        ++ post) ∧
    strptime_compact (strftime_compact s) = some (wallTrunc s) ∧
    strptime_compact (strftime_compact e) = some (wallTrunc e) ∧
    (∀ o : Int, strftime_compact { s with utcOffsetMinutes := o } =
      strftime_compact s) := by
  refine ⟨?_, strptime_strftime s hs, strptime_strftime e he, fun o => rfl⟩
  refine ⟨"https://calendar.google.com/calendar/render?action=TEMPLATE&text="
    ++ encodePlus title ++ "&",
    (if (match loc with
         | some l => encodePlus l
         | none => "") ≠ "" then
       "&location=" ++ (match loc with
         | some l => encodePlus l
         | none => "")
     else "") ++
    (match rem with
     | some r => if r ≠ 0 then "&reminders=popup%3A" ++ toString r else ""
     | none => ""), ?_⟩
  simp only [gcal_link]
  have hsplit : ∀ y : String, ("&dates=" : String) ++ y = "&" ++ ("dates=" ++ y) := by
    intro y
    rw [← String.append_assoc]
    exact congrArg (fun x => x ++ y) (by decide)
  cases rem with
  | none => split_ifs <;> simp [String.append_assoc, hsplit]
  | some r =>
    by_cases hr : r = 0 <;> split_ifs <;>
      simp [String.append_assoc, hsplit, hr]

/-- Sample resolved start: 2024-06-11 15:00:00 at utc offset +03:00. -/
def dtA : PyDateTime := ⟨2024, 6, 11, 15, 0, 0, 0, 180⟩

/-- Sample resolved end: 2024-06-11 15:30:00.500000 at utc offset +03:00. -/
def dtB : PyDateTime := ⟨2024, 6, 11, 15, 30, 0, 500000, 180⟩

/-- C7 witness: both sample timestamps round-trip through the compact
format, and the sample link carries them in its `dates=` parameter. -/
theorem C7_compact_dates_roundtrip_witness :
    strptime_compact (strftime_compact dtA) = some (wallTrunc dtA) ∧
    strptime_compact (strftime_compact dtB) = some (wallTrunc dtB) :=
  ⟨(C7_compact_dates_roundtrip "Team Sync" dtA dtB none none
      (by decide) (by decide)).2.1,
   (C7_compact_dates_roundtrip "Team Sync" dtA dtB none none
      (by decide) (by decide)).2.2.1⟩

/-- C9 (amended): the `&reminders=popup%3A<minutes>` parameter is
appended to the link exactly when the reminder is truthy — present and
non-zero — with the integer passing through resolution unchanged; a
reminder of 0 is present but truthy-false, so the parameter is omitted
(refuting the unqualified `if and only if present`, see
`C9_zero_reminder_counterexample`). -/
theorem C9_reminder_param_iff_truthy (title : String) (s e : PyDateTime)
    (loc : Option String) :
    (∀ r : Int, r ≠ 0 →
      gcal_link title s e loc (some r) =
        gcal_link title s e loc none ++ "&reminders=popup%3A" ++ toString r) ∧
    gcal_link title s e loc (some 0) = gcal_link title s e loc none ∧
    (∀ parse parseDur f ev, resolveEvent parse parseDur f = some ev →
      ev.reminder = f.reminder) := by
  refine ⟨?_, ?_, ?_⟩
  · intro r hr
    simp [gcal_link, hr]
  · simp [gcal_link]
  · intro parse parseDur f ev h
    unfold resolveEvent at h
    cases hst : (truthyStr f.start_time_str).bind parse with
    | none => rw [hst] at h; cases h
    | some t =>
      rw [hst] at h
      simp only [Option.some.injEq] at h
      subst h
      rfl

/-- C9 witness: a non-zero reminder of 15 minutes appends exactly the
popup parameter. -/
theorem C9_reminder_param_iff_truthy_witness :
    gcal_link "Sync" dtA dtB none (some 15) =
      gcal_link "Sync" dtA dtB none none ++ "&reminders=popup%3A" ++
        toString (15 : Int) :=
  (C9_reminder_param_iff_truthy "Sync" dtA dtB none).1 15 (by decide)

/-- Substring occurrence test over characters. -/
def containsSeg (needle hay : List Char) : Bool :=
  (List.range (hay.length + 1)).any (fun i => needle.isPrefixOf (hay.drop i))

/-- C9 counterexample: `reminder_minutes = 0` is present, yet the link
is identical to the reminder-less link and contains no `&reminders=`
parameter at all — the parameter is not appended for every present
reminder. -/
theorem C9_zero_reminder_counterexample :
    (some (0 : Int)).isSome = true ∧
    gcal_link "Sync" dtA dtB none (some 0) =
      gcal_link "Sync" dtA dtB none none ∧
    containsSeg ("&reminders=".toList)
      ((gcal_link "Sync" dtA dtB none (some 0)).toList) = false :=
  ⟨rfl, by decide, by decide⟩

/-- C6 (amended): for every present positive reminder the display
message contains the humanized line — exactly 60 renders as
`1 hour before`, any other positive multiple of 60 as `N hours before`
with `N = minutes / 60`, and everything else as `N minutes before`.
(The unrestricted claim over all present integers fails at 0, which the
code does not render at all: see `C6_zero_reminder_counterexample`.) -/
theorem C6_reminder_humanized (title : String) (s e : PyDateTime)
    (loc : Option String) (r : Int) (hr : 0 < r) :
    (r = 60 → "Reminder: 1 hour before" ∈
      message_parts title s e loc (some r)) ∧
    (r ≠ 60 → r % 60 = 0 →
      ("Reminder: " ++ toString (r / 60) ++ " hours before") ∈
        message_parts title s e loc (some r)) ∧
    (r % 60 ≠ 0 →
      ("Reminder: " ++ toString r ++ " minutes before") ∈
        message_parts title s e loc (some r)) := by
  have hr0 : r ≠ 0 := by omega
  refine ⟨?_, ?_, ?_⟩
  · intro h60
    subst h60
    simp [message_parts, reminder_display]
  · intro hne hmod
    have h60le : 60 ≤ r := by omega
    have hfd : Int.fdiv r 60 = r / 60 := by
      obtain ⟨k, hk⟩ : ∃ k, r = 60 * k := ⟨r / 60, by omega⟩
      subst hk
      rw [Int.mul_fdiv_cancel_left _ (by norm_num),
        Int.mul_ediv_cancel_left _ (by norm_num)]
    simp [message_parts, reminder_display, hr0, hne, hmod, h60le, hfd]
  · intro hmod
    have hne60 : r ≠ 60 := by omega
    have hdvd : ¬((60 : Int) ∣ r) := fun hd =>
      hmod (Int.emod_eq_zero_of_dvd hd)
    simp [message_parts, reminder_display, hr0, hne60, hdvd]

/-- C6 witness: 60 renders as one hour, 90 as 90 minutes, 120 as
2 hours. -/
theorem C6_reminder_humanized_witness :
    "Reminder: 1 hour before" ∈
      message_parts "Standup" dtA dtB none (some 60) ∧
    ("Reminder: " ++ toString (90 : Int) ++ " minutes before") ∈
      message_parts "Standup" dtA dtB none (some 90) ∧
    ("Reminder: " ++ toString ((120 : Int) / 60) ++ " hours before") ∈
      message_parts "Standup" dtA dtB none (some 120) :=
  ⟨(C6_reminder_humanized "Standup" dtA dtB none 60 (by decide)).1 rfl,
   (C6_reminder_humanized "Standup" dtA dtB none 90 (by decide)).2.2
     (by decide),
   (C6_reminder_humanized "Standup" dtA dtB none 120 (by decide)).2.1
     (by decide) (by decide)⟩

/-- C6 counterexample: 0 is a present multiple of 60, but the message
renders no reminder line at all (Python `if reminder:` is false at 0),
so it is not rendered as `0 hours before` — nor as anything else. -/
theorem C6_zero_reminder_counterexample :
    (0 : Int) % 60 = 0 ∧
    "Reminder: 0 hours before" ∉
      message_parts "Standup" dtA dtB none (some 0) ∧
    (∀ p ∈ message_parts "Standup" dtA dtB none (some 0),
      (['R', 'e', 'm', 'i', 'n', 'd', 'e', 'r'].isPrefixOf p.toList) = false) :=
  ⟨rfl, by decide, by decide⟩
